import Mathlib

/-!
Verification development for the autocrisp image-scraping pipeline.

The Python source is shallowly embedded: pure helper functions become Lean
functions on `String`/`List`; the network (`requests`), the image decoder
(`PIL`) and the filesystem are modelled as explicit oracle parameters; the
mutable `WebScraper` object becomes explicit state passing.  Machine
integers are `Nat` reduced mod `2 ^ 32`/`2 ^ 64` where the algorithm does.
-/

namespace AutoCrisp

/-! ## Byte-level helpers and MD5 (embeds `hashlib.md5(...).hexdigest()`) -/

/-- UTF-8 encoding of one code point, as `Nat` byte values
(Python `str.encode()` encodes the URL before hashing). -/
def utf8EncodeChar (c : Char) : List Nat :=
  let n := c.toNat
  if n < 128 then [n]
  else if n < 2048 then [192 + n / 64, 128 + n % 64]
  else if n < 65536 then [224 + n / 4096, 128 + (n / 64) % 64, 128 + n % 64]
  else [240 + n / 262144, 128 + (n / 4096) % 64, 128 + (n / 64) % 64, 128 + n % 64]

/-- UTF-8 bytes of a string. -/
def strBytes (s : String) : List Nat :=
  s.data.foldr (fun c acc => utf8EncodeChar c ++ acc) []

/-- Reduce mod `2 ^ 32` (MD5 works on 32-bit words). -/
def u32 (n : Nat) : Nat := n % 4294967296

/-- 32-bit left rotation. -/
def rotl32 (x n : Nat) : Nat :=
  u32 (x <<< n) ||| (u32 x >>> (32 - n))

/-- Bitwise complement on 32 bits. -/
def not32 (x : Nat) : Nat := x ^^^ 4294967295

/-- The 64 MD5 sine-derived constants (RFC 1321). -/
def md5K : List Nat :=
  [3614090360, 3905402710, 606105819, 3250441966,
   4118548399, 1200080426, 2821735955, 4249261313,
   1770035416, 2336552879, 4294925233, 2304563134,
   1804603682, 4254626195, 2792965006, 1236535329,
   4129170786, 3225465664, 643717713, 3921069994,
   3593408605, 38016083, 3634488961, 3889429448,
   568446438, 3275163606, 4107603335, 1163531501,
   2850285829, 4243563512, 1735328473, 2368359562,
   4294588738, 2272392833, 1839030562, 4259657740,
   2763975236, 1272893353, 4139469664, 3200236656,
   681279174, 3936430074, 3572445317, 76029189,
   3654602809, 3873151461, 530742520, 3299628645,
   4096336452, 1126891415, 2878612391, 4237533241,
   1700485571, 2399980690, 4293915773, 2240044497,
   1873313359, 4264355552, 2734768916, 1309151649,
   4149444226, 3174756917, 718787259, 3951481745]

/-- The per-round left-rotation amounts (RFC 1321). -/
def md5S : List Nat :=
  [7, 12, 17, 22, 7, 12, 17, 22, 7, 12, 17, 22, 7, 12, 17, 22,
   5, 9, 14, 20, 5, 9, 14, 20, 5, 9, 14, 20, 5, 9, 14, 20,
   4, 11, 16, 23, 4, 11, 16, 23, 4, 11, 16, 23, 4, 11, 16, 23,
   6, 10, 15, 21, 6, 10, 15, 21, 6, 10, 15, 21, 6, 10, 15, 21]

/-- MD5 working state: the four 32-bit registers. -/
structure MD5St where
  a : Nat
  b : Nat
  c : Nat
  d : Nat
deriving Repr, DecidableEq

/-- One MD5 round `i` (0-based) on registers, given the 16 message words. -/
def md5Step (i : Nat) (st : MD5St) (m : List Nat) : MD5St :=
  let f :=
    if i < 16 then (st.b &&& st.c) ||| (not32 st.b &&& st.d)
    else if i < 32 then (st.d &&& st.b) ||| (not32 st.d &&& st.c)
    else if i < 48 then st.b ^^^ st.c ^^^ st.d
    else st.c ^^^ (st.b ||| not32 st.d)
  let g :=
    if i < 16 then i
    else if i < 32 then (5 * i + 1) % 16
    else if i < 48 then (3 * i + 5) % 16
    else (7 * i) % 16
  let f := u32 (f + st.a + md5K.getD i 0 + m.getD g 0)
  { a := st.d, d := st.c, c := st.b,
    b := u32 (st.b + rotl32 f (md5S.getD i 0)) }

/-- Run rounds `i, i+1, ...` for `fuel` steps. -/
def md5Rounds : Nat → Nat → MD5St → List Nat → MD5St
  | 0, _, st, _ => st
  | fuel + 1, i, st, m => md5Rounds fuel (i + 1) (md5Step i st m) m

/-- Little-endian 32-bit words of a 64-byte chunk. -/
def md5Words (chunk : List Nat) : List Nat :=
  (List.range 16).map fun j =>
    chunk.getD (4 * j) 0 + 256 * chunk.getD (4 * j + 1) 0 +
      65536 * chunk.getD (4 * j + 2) 0 + 16777216 * chunk.getD (4 * j + 3) 0

/-- Compress one 64-byte chunk into the state. -/
def md5Chunk (st : MD5St) (chunk : List Nat) : MD5St :=
  let m := md5Words chunk
  let r := md5Rounds 64 0 st m
  { a := u32 (st.a + r.a), b := u32 (st.b + r.b),
    c := u32 (st.c + r.c), d := u32 (st.d + r.d) }

/-- Feed bytes one at a time, compressing whenever the buffer reaches 64
bytes (the padded input length is always a multiple of 64). -/
def md5Feed (st : MD5St) (buf : List Nat) : List Nat → MD5St
  | [] => st
  | byte :: rest =>
    let buf2 := buf ++ [byte]
    if buf2.length = 64 then md5Feed (md5Chunk st buf2) [] rest
    else md5Feed st buf2 rest

/-- Little-endian 8-byte encoding of the bit length mod `2 ^ 64`. -/
def md5LenBytes (len : Nat) : List Nat :=
  let bits := (len * 8) % 18446744073709551616
  (List.range 8).map fun j => (bits >>> (8 * j)) % 256

/-- MD5 padding: `0x80`, zeros to 56 mod 64, then the bit length. -/
def md5Pad (msg : List Nat) : List Nat :=
  let padLen := (119 - msg.length % 64) % 64
  msg ++ [128] ++ List.replicate padLen 0 ++ md5LenBytes msg.length

/-- The 16 digest bytes of a byte message. -/
def md5Digest (msg : List Nat) : List Nat :=
  let st := md5Feed ⟨1732584193, 4023233417, 2562383102, 271733878⟩ [] (md5Pad msg)
  ([st.a, st.b, st.c, st.d].map fun w => (List.range 4).map fun j => (w >>> (8 * j)) % 256).flatten

/-- Lowercase hex digit for a value below 16. -/
def hexDigit (n : Nat) : Char :=
  if n < 10 then Char.ofNat (48 + n) else Char.ofNat (87 + n)

/-- Lowercase hex string of a byte list. -/
def hexOfBytes (bs : List Nat) : String :=
  ⟨bs.foldr (fun b acc => hexDigit (b / 16) :: hexDigit (b % 16) :: acc) []⟩

/-- Embeds `hashlib.md5(s.encode()).hexdigest()`. -/
def md5Hex (s : String) : String :=
  hexOfBytes (md5Digest (strBytes s))

set_option maxRecDepth 4000

example : md5Hex "" = "d41d8cd98f00b204e9800998ecf8427e" := by decide
example : md5Hex "abc" = "900150983cd24fb0d6963f7d28e17f72" := by decide
example : md5Hex "https://x.test/a.png" = "bac8f6007c71f5bcb79dede1d3e6b4b1" := by decide

/-! ## URL parsing (embeds `urllib.parse.urlsplit/urlparse/urljoin`)

ASCII-only strings are assumed (Python's `str.lower`/`\s` are
Unicode-aware; every URL and style sheet in this development is ASCII).
The IPv6-bracket validation of `urlsplit` (a `raise` on malformed
bracketed hosts) is not modelled: no input here contains brackets. -/

/-- Characters allowed in a URL scheme after the first (Python
`scheme_chars`). -/
def isSchemeChar (c : Char) : Bool :=
  c.isAlpha || c.isDigit || c == '+' || c == '-' || c == '.'

/-- Python `urlsplit` removes tab, CR and LF from the URL first. -/
def stripUnsafe (s : String) : String :=
  ⟨s.data.filter fun c => !(c == '\t' || c == '\r' || c == '\n')⟩

/-- ASCII lowercase of a char list (Python `str.lower` on ASCII text). -/
def lowerChars (cs : List Char) : List Char :=
  cs.map Char.toLower

/-- Python `s.split(sep)` for a single-character separator: always returns
at least one (possibly empty) piece. -/
def splitAllChar (sep : Char) : List Char → List (List Char)
  | [] => [[]]
  | c :: cs =>
    if c = sep then [] :: splitAllChar sep cs
    else
      match splitAllChar sep cs with
      | [] => [[c]]
      | g :: gs => (c :: g) :: gs

/-- Whether `cs` starts with `pre`. -/
def startsWithChars (pre cs : List Char) : Bool :=
  cs.take pre.length = pre

/-- Python `sep.join(pieces)` for `sep = "/"`. -/
def joinSlash : List (List Char) → List Char
  | [] => []
  | [p] => p
  | p :: ps => p ++ '/' :: joinSlash ps

/-- First occurrence split: Python `s.split(sep, 1)`. -/
def splitOnceChar (sep : Char) : List Char → Option (List Char × List Char)
  | [] => none
  | c :: cs =>
    if c = sep then some ([], cs)
    else (splitOnceChar sep cs).map fun p => (c :: p.1, p.2)

/-- Index of the last occurrence of `c` (Python `s.rfind(c)`), if any. -/
def lastIdxOf (c : Char) (cs : List Char) : Option Nat :=
  (cs.reverse.findIdx? (· == c)).map fun k => cs.length - 1 - k

/-- Index of the first occurrence of `c` at or after position `j`
(Python `s.find(c, j)`), if any. -/
def idxOfFrom (c : Char) (j : Nat) (cs : List Char) : Option Nat :=
  ((cs.drop j).findIdx? (· == c)).map (· + j)

/-- The `scheme, netloc, path, query, fragment` of `urlsplit`. -/
structure SplitUrl where
  scheme : String
  netloc : String
  path : String
  query : String
  fragment : String
deriving Repr, DecidableEq

/-- Embeds `urllib.parse.urlsplit(url, defScheme)` (with
`allow_fragments=True`, as every call site here uses). -/
def urlsplitPy (url defScheme : String) : SplitUrl :=
  let cs := (stripUnsafe url).data
  let (scheme, cs) :=
    match splitOnceChar ':' cs with
    | some (before, after) =>
      if before ≠ [] ∧ (before.headD ' ').isAlpha ∧ before.tail.all isSchemeChar then
        (String.mk (lowerChars before), after)
      else (defScheme, cs)
    | none => (defScheme, cs)
  let (netloc, cs) :=
    if cs.take 2 = ['/', '/'] then
      let rest := cs.drop 2
      (String.mk (rest.takeWhile fun c => !(c == '/' || c == '?' || c == '#')),
       rest.dropWhile fun c => !(c == '/' || c == '?' || c == '#'))
    else ("", cs)
  let (cs, fragment) :=
    match splitOnceChar '#' cs with
    | some (before, after) => (before, String.mk after)
    | none => (cs, "")
  let (cs, query) :=
    match splitOnceChar '?' cs with
    | some (before, after) => (before, String.mk after)
    | none => (cs, "")
  ⟨scheme, netloc, String.mk cs, query, fragment⟩

/-- The 6-tuple of `urlparse` (adds `params` split off the path). -/
structure ParsedUrl where
  scheme : String
  netloc : String
  path : String
  params : String
  query : String
  fragment : String
deriving Repr, DecidableEq

/-- Embeds `urllib.parse._splitparams`. -/
def splitparamsPy (path : String) : String × String :=
  let cs := path.data
  let cut : Option Nat :=
    if cs.contains '/' then
      match lastIdxOf '/' cs with
      | some j => idxOfFrom ';' j cs
      | none => none
    else cs.findIdx? (· == ';')
  match cut with
  | none => (path, "")
  | some i => (String.mk (cs.take i), String.mk (cs.drop (i + 1)))

/-- Embeds `urllib.parse.urlparse(url, defScheme)`. -/
def urlparsePy (url defScheme : String) : ParsedUrl :=
  let s := urlsplitPy url defScheme
  let (path, params) :=
    if s.path.data.contains ';' then splitparamsPy s.path else (s.path, "")
  ⟨s.scheme, s.netloc, path, params, s.query, s.fragment⟩

/-- Embeds `urllib.parse.urlunsplit`. -/
def urlunsplitPy (scheme netloc url query fragment : String) : String :=
  let url :=
    if netloc ≠ "" ∨ (url ≠ "" ∧ startsWithChars ['/', '/'] url.data) then
      let url := if url ≠ "" ∧ ¬ startsWithChars ['/'] url.data then "/" ++ url else url
      "//" ++ netloc ++ url
    else url
  let url := if scheme ≠ "" then scheme ++ ":" ++ url else url
  let url := if query ≠ "" then url ++ "?" ++ query else url
  if fragment ≠ "" then url ++ "#" ++ fragment else url

/-- Embeds `urllib.parse.urlunparse`. -/
def urlunparsePy (p : ParsedUrl) : String :=
  let url := if p.params ≠ "" then p.path ++ ";" ++ p.params else p.path
  urlunsplitPy p.scheme p.netloc url p.query p.fragment

/-- Python `uses_relative`. -/
def usesRelative : List String :=
  ["", "ftp", "http", "gopher", "nntp", "imap", "wais", "file", "https",
   "shttp", "mms", "prospero", "rtsp", "rtspu", "sftp", "svn", "svn+ssh",
   "ws", "wss"]

/-- Python `uses_netloc`. -/
def usesNetloc : List String :=
  ["", "ftp", "http", "gopher", "nntp", "telnet", "imap", "wais", "file",
   "mms", "https", "shttp", "snews", "prospero", "rtsp", "rtspu", "rsync",
   "svn", "svn+ssh", "sftp", "nfs", "git", "git+ssh", "ws", "wss"]

/-- Python `segments[1:-1] = filter(None, segments[1:-1])`: drop empty
segments strictly between the first and last element. -/
def filterMiddle (l : List (List Char)) : List (List Char) :=
  match l with
  | [] => []
  | [x] => [x]
  | x :: xs =>
    match xs.getLast? with
    | none => [x]
    | some last => x :: (xs.dropLast.filter fun s => s ≠ []) ++ [last]

/-- The dot-segment resolution loop of `urljoin` (`resolved_path`);
`'..'` pops the last segment (an empty pop is ignored), `'.'` is skipped. -/
def resolveSegs (acc : List (List Char)) : List (List Char) → List (List Char)
  | [] => acc
  | ['.', '.'] :: rest => resolveSegs acc.dropLast rest
  | ['.'] :: rest => resolveSegs acc rest
  | seg :: rest => resolveSegs (acc ++ [seg]) rest

/-- Embeds `urllib.parse.urljoin(base, url)`. -/
def urljoinPy (base url : String) : String :=
  if base = "" then url
  else if url = "" then base
  else
    let b := urlparsePy base ""
    let u := urlparsePy url b.scheme
    if u.scheme ≠ b.scheme ∨ ¬ usesRelative.contains u.scheme then url
    else
      let netlocKnown := usesNetloc.contains u.scheme
      if netlocKnown ∧ u.netloc ≠ "" then urlunparsePy u
      else
        let netloc := if netlocKnown then b.netloc else u.netloc
        if u.path = "" ∧ u.params = "" then
          let query := if u.query = "" then b.query else u.query
          urlunparsePy ⟨u.scheme, netloc, b.path, b.params, query, u.fragment⟩
        else
          let baseParts := splitAllChar '/' b.path.data
          let baseParts :=
            if baseParts.getLastD [] ≠ [] then baseParts.dropLast else baseParts
          let segments :=
            if startsWithChars ['/'] u.path.data then splitAllChar '/' u.path.data
            else filterMiddle (baseParts ++ splitAllChar '/' u.path.data)
          let resolved := resolveSegs [] segments
          let resolved :=
            if segments.getLastD [] = ['.'] ∨ segments.getLastD [] = ['.', '.'] then
              resolved ++ [[]]
            else resolved
          let path := String.mk (joinSlash resolved)
          let path := if path = "" then "/" else path
          urlunparsePy ⟨u.scheme, netloc, path, u.params, u.query, u.fragment⟩

example :
    urljoinPy "https://x.test/page" "/a.png" = "https://x.test/a.png" := by decide
example :
    urljoinPy "https://x.test/page" "https://x.test/a.png" = "https://x.test/a.png" := by
  decide
example :
    urljoinPy "https://x.test/dir/page.html" "../img/b.jpg" = "https://x.test/img/b.jpg" := by
  decide
example :
    urljoinPy "https://x.test/page" "//cdn.test/c.gif" = "https://cdn.test/c.gif" := by
  decide
example : urljoinPy "https://x.test/dir/" "img.png" = "https://x.test/dir/img.png" := by decide
example : urljoinPy "https://x.test/dir/page?q=1" "img.png?x=2" = "https://x.test/dir/img.png?x=2" := by decide
example : urljoinPy "https://x.test/a/b/c" "./d.png" = "https://x.test/a/b/d.png" := by decide
example : urljoinPy "https://x.test/page" "HTTPS://Y.test/B.PNG" = "https://Y.test/B.PNG" := by decide
example : urljoinPy "https://x.test" "a.png" = "https://x.test/a.png" := by decide
example : urljoinPy "https://x.test/p" "#frag" = "https://x.test/p#frag" := by decide
example : urljoinPy "https://x.test/p" "data:image/png;base64,xyz" = "data:image/png;base64,xyz" := by decide
example : urlparsePy "https://x.test/a;p.png?q=1#f" "" =
    ⟨"https", "x.test", "/a", "p.png", "q=1", "f"⟩ := by decide
example : (urlparsePy "HTTPS://x.test/A.PNG?q" "").path = "/A.PNG" := by decide

/-! ## `WebScraper` helpers (src/app/scraper/web_scraper.py) -/

/-- Embeds `WebScraper.SUPPORTED_EXTENSIONS`. -/
def SUPPORTED_EXTENSIONS : List String :=
  [".jpg", ".jpeg", ".png", ".webp", ".gif", ".bmp"]

/-- Embeds `WebScraper._generate_id`: `hashlib.md5(url.encode()).hexdigest()[:12]`. -/
def generateId (url : String) : String :=
  String.mk ((md5Hex url).data.take 12)

/-- Whether `cs` ends with `suf` (Python `str.endswith`). -/
def endsWithChars (suf cs : List Char) : Bool :=
  cs.drop (cs.length - suf.length) = suf

/-- Embeds `WebScraper._is_valid_image_url`: the lowercased parsed path must end
with one of the supported extensions. -/
def isValidImageUrl (url : String) : Bool :=
  let path := lowerChars (urlparsePy url "").path.data
  SUPPORTED_EXTENSIONS.any fun ext => endsWithChars ext.data path

/-- Embeds `WebScraper._resolve_url`: `urljoin(self.base_url, url)`. -/
def resolveUrl (baseUrl url : String) : String :=
  urljoinPy baseUrl url

/-- Embeds `pathlib.PurePosixPath(p).suffix`: the `.ext` of the final path
component; empty when the name has no dot, starts with its only dot, or
ends in a dot. -/
def pathSuffix (p : String) : String :=
  let name := ((splitAllChar '/' p.data).filter fun s => s ≠ [] ∧ s ≠ ['.']).getLastD []
  match lastIdxOf '.' name with
  | none => ""
  | some i => if 0 < i ∧ i < name.length - 1 then String.mk (name.drop i) else ""

/-- Embeds `Path(urlparse(url).path).suffix.lower() or ".jpg"` from
`WebScraper.download_image`. -/
def extOfUrl (url : String) : String :=
  let suf := String.mk (lowerChars (pathSuffix (urlparsePy url "").path).data)
  if suf = "" then ".jpg" else suf

/-- The `ImageInfo` dataclass.  `Path` values are modelled as `String`. -/
structure ImageInfo where
  id : String
  original_url : String
  local_path : Option String := none
  width : Option Nat := none
  height : Option Nat := none
  file_size : Option Nat := none
  alt_text : String := ""
  source_element : String := ""
deriving Repr, DecidableEq

/-! ## Parsed-document model

`BeautifulSoup` is an external parser; `scan` consumes it only through
`find_all("img")`, `find_all("source")`, `find_all(style=True)` and
`find_all("style")`, all in document order.  A parsed document is
therefore embedded as those four lists; attribute lookups
(`tag.get(...)`) become the recorded `Option String` values. -/

/-- An `<img>` tag: the attributes `scan` reads. -/
structure ImgTag where
  src : Option String := none
  dataSrc : Option String := none
  dataLazySrc : Option String := none
  alt : Option String := none
deriving Repr, DecidableEq

/-- A `<source>` tag: `source.get("srcset", "")`. -/
structure SourceTag where
  srcset : String := ""
deriving Repr, DecidableEq

/-- A parsed HTML document, as consumed by `WebScraper.scan`. -/
structure HtmlDoc where
  imgs : List ImgTag := []
  sources : List SourceTag := []
  styledEls : List String := []
  styleTags : List (Option String) := []
deriving Repr, DecidableEq

/-- Python truthiness chain `a or b or c`: the first non-`None`,
non-empty string, if any. -/
def firstTruthy : List (Option String) → Option String
  | [] => none
  | some s :: rest => if s ≠ "" then some s else firstTruthy rest
  | none :: rest => firstTruthy rest

/-- Python ASCII whitespace (`str.strip` / `\s`). -/
def isSpaceChar (c : Char) : Bool :=
  c == ' ' || c == '\t' || c == '\n' || c == '\r' || c == '\x0b' || c == '\x0c'

/-- Python `s.strip()`. -/
def trimChars (cs : List Char) : List Char :=
  ((cs.dropWhile isSpaceChar).reverse.dropWhile isSpaceChar).reverse

/-- Embeds `part.strip().split()[0] if part.strip() else ""` for each comma part
of a `srcset` value. -/
def srcsetParts (srcset : String) : List String :=
  (splitAllChar ',' srcset.data).map fun part =>
    let p := trimChars part
    if p = [] then "" else String.mk (p.takeWhile fun c => !isSpaceChar c)

/-- Characters the regex capture group `[^"\')\s]+` accepts. -/
def isBgUrlChar (c : Char) : Bool :=
  !(c == '"' || c == '\'' || c == ')' || isSpaceChar c)

/-- Drop a literal character sequence, or fail. -/
def dropLit : List Char → List Char → Option (List Char)
  | [], cs => some cs
  | _ :: _, [] => none
  | p :: ps, c :: cs => if c = p then dropLit ps cs else none

/-- Match `background(?:-image)?\s*:\s*url\(["\']?([^"\')\s]+)["\']?\)` at
the head of `cs`: the captured URL and the remainder after the match.
The regex is deterministic here: each optional piece is forced by what
can follow it, so greedy matching needs no backtracking. -/
def matchBg (cs : List Char) : Option (String × List Char) :=
  (dropLit "background".data cs).bind fun cs1 =>
  let cs2 := (dropLit "-image".data cs1).getD cs1
  match cs2.dropWhile isSpaceChar with
  | ':' :: cs3 =>
    (dropLit "url(".data (cs3.dropWhile isSpaceChar)).bind fun cs4 =>
    let cs5 :=
      match cs4 with
      | q :: rest => if q = '"' ∨ q = '\'' then rest else cs4
      | [] => cs4
    let cap := cs5.takeWhile isBgUrlChar
    match cap, cs5.dropWhile isBgUrlChar with
    | [], _ => none
    | _ :: _, ')' :: rest => some (String.mk cap, rest)
    | _ :: _, q :: ')' :: rest =>
      if q = '"' ∨ q = '\'' then some (String.mk cap, rest) else none
    | _, _ => none
  | _ => none

/-- Embeds `pattern.findall(style)`: scan left to right, emitting captures of
non-overlapping matches.  Fuel-driven (one unit per character position);
`bgFindAll` supplies enough fuel for the whole string. -/
def bgFindAux : Nat → List Char → List String
  | 0, _ => []
  | _ + 1, [] => []
  | fuel + 1, c :: rest =>
    match matchBg (c :: rest) with
    | some (cap, rest2) => cap :: bgFindAux fuel rest2
    | none => bgFindAux fuel rest

/-- All captures of the background-image pattern in one style string. -/
def bgFindAll (style : String) : List String :=
  bgFindAux style.data.length style.data

/-- Embeds `WebScraper._extract_background_images`: inline `style` attributes in
document order, then `<style>` tag contents. -/
def extractBackgroundImages (doc : HtmlDoc) : List String :=
  let inline := doc.styledEls.foldr (fun st acc => bgFindAll st ++ acc) []
  let tags := doc.styleTags.foldr
    (fun o acc => (match o with | some s => bgFindAll s | none => []) ++ acc) []
  inline ++ tags

example :
    bgFindAll (String.mk ("background-image: url(".data ++
      '\'' :: "https://x.test/a.png".data ++ ['\'', ')'])) =
      ["https://x.test/a.png"] := by decide
example : bgFindAll "color: red; background : url(/b.gif) ; x" = ["/b.gif"] := by decide
example :
    bgFindAll (String.mk ("background:url(".data ++ '"' :: "c.webp".data ++ ['"', ')'])) =
      ["c.webp"] := by decide
example : bgFindAll "backgrounds: url(a.png)" = [] := by decide

/-! ## `WebScraper.scan`

The three extraction loops of `scan` share one body
(`url = resolve; if url in seen or not valid: continue; seen.add; append`).
Computing each loop's resolved reference is independent of `seen_urls`
and `self.images`, so the references are listed first (`imgRefs`,
`sourceRefs`, `bgRefs`, in the source's order) and the shared body is the
single fold `refLoop`. -/

/-- One raw reference with its resolved URL and provenance. -/
structure RawRef where
  url : String
  alt : String
  source_element : String
deriving Repr, DecidableEq

/-- The `ImageInfo` appended for an accepted reference. -/
def mkInfo (r : RawRef) : ImageInfo :=
  { id := generateId r.url, original_url := r.url,
    alt_text := r.alt, source_element := r.source_element }

/-- References from `<img>` tags:
`src or data-src or data-lazy-src`, skipped when all are falsy, with
`alt` defaulting to `""`. -/
def imgRefs (baseUrl : String) (imgs : List ImgTag) : List RawRef :=
  imgs.foldr
    (fun t acc =>
      match firstTruthy [t.src, t.dataSrc, t.dataLazySrc] with
      | none => acc
      | some src => ⟨resolveUrl baseUrl src, t.alt.getD "", "img"⟩ :: acc)
    []

/-- References from `<source>` `srcset` entries (empty parts skipped). -/
def sourceRefs (baseUrl : String) (sources : List SourceTag) : List RawRef :=
  sources.foldr
    (fun s acc =>
      (srcsetParts s.srcset).foldr
        (fun up acc2 =>
          if up = "" then acc2 else ⟨resolveUrl baseUrl up, "", "source"⟩ :: acc2)
        acc)
    []

/-- References from background-image declarations. -/
def bgRefs (baseUrl : String) (doc : HtmlDoc) : List RawRef :=
  (extractBackgroundImages doc).map fun u => ⟨resolveUrl baseUrl u, "", "background-image"⟩

/-- The shared loop body of `scan`: skip when the URL was already seen or
is not a supported image URL, otherwise record it and append the new
`ImageInfo` to `self.images`. -/
def refLoop (seen : List String) (images : List ImageInfo) :
    List RawRef → List String × List ImageInfo
  | [] => (seen, images)
  | r :: rs =>
    if seen.contains r.url || !isValidImageUrl r.url then refLoop seen images rs
    else refLoop (r.url :: seen) (images ++ [mkInfo r]) rs

/-- All references of one document in extraction order. -/
def scanRefs (baseUrl : String) (doc : HtmlDoc) : List RawRef :=
  imgRefs baseUrl doc.imgs ++ sourceRefs baseUrl doc.sources ++ bgRefs baseUrl doc

/-- The mutable `WebScraper` object: `base_url` and the accumulated
`self.images`.  The HTTP session only sets request headers and is not
modelled. -/
structure Scraper where
  base_url : String
  images : List ImageInfo := []
deriving Repr, DecidableEq

/-- Embeds `WebScraper(base_url)`: a fresh scraper with `self.images = []`. -/
def Scraper.init (baseUrl : String) : Scraper := ⟨baseUrl, []⟩

/-- Embeds `WebScraper.scan` on an already-fetched, already-parsed document:
a fresh `seen_urls`, the three extraction loops appending into
`self.images`, and `self.images` as the return value. -/
def Scraper.scan (s : Scraper) (doc : HtmlDoc) : Scraper × List ImageInfo :=
  let r1 := refLoop [] s.images (imgRefs s.base_url doc.imgs)
  let r2 := refLoop r1.1 r1.2 (sourceRefs s.base_url doc.sources)
  let r3 := refLoop r2.1 r2.2 (bgRefs s.base_url doc)
  ({ s with images := r3.2 }, r3.2)

/-! ## `WebScraper.download_image` / `download_all`

The network and the image decoder are oracle parameters: `fetch` returns
the response bytes for a URL or `none` for any
`requests.RequestException`, and `decode` returns the pixel dimensions
`PIL` reads from the saved bytes, or `none` when `Image.open` fails. -/

/-- Embeds `WebScraper.download_image`: raises (models the re-raised fetch
exception) without touching the image, or returns the enriched image:
`local_path = TEMP_DIR/<id><ext>`, `file_size = len(content)`, and
dimensions only when decoding succeeded. -/
def downloadImage (tempDir : String) (fetch : String → Option (List Nat))
    (decode : List Nat → Option (Nat × Nat)) (img : ImageInfo) :
    Except String ImageInfo :=
  match fetch img.original_url with
  | none => Except.error ("Failed to download " ++ img.original_url)
  | some content =>
    let localPath := tempDir ++ "/" ++ img.id ++ extOfUrl img.original_url
    let wh :=
      match decode content with
      | some wh => (some wh.1, some wh.2)
      | none => (img.width, img.height)
    Except.ok { img with width := wh.1, height := wh.2,
                         local_path := some localPath,
                         file_size := some content.length }

/-- One iteration of the `download_all` loop: the enriched image when
`download_image` succeeded, the image unchanged when it raised (the
caught-and-logged warning branch). -/
def downloadStep (tempDir : String) (fetch : String → Option (List Nat))
    (decode : List Nat → Option (Nat × Nat)) (img : ImageInfo) : ImageInfo :=
  match downloadImage tempDir fetch decode img with
  | Except.ok enriched => enriched
  | Except.error _ => img

/-- The post-loop `self.images` of `download_all`. -/
def downloadAllImages (tempDir : String) (fetch : String → Option (List Nat))
    (decode : List Nat → Option (Nat × Nat)) (images : List ImageInfo) :
    List ImageInfo :=
  images.map (downloadStep tempDir fetch decode)

/-- Embeds the return value of `WebScraper.download_all`:
`[img for img in self.images if img.local_path is not None]`. -/
def downloadAll (tempDir : String) (fetch : String → Option (List Nat))
    (decode : List Nat → Option (Nat × Nat)) (images : List ImageInfo) :
    List ImageInfo :=
  (downloadAllImages tempDir fetch decode images).filter fun img => img.local_path.isSome

/-! ## API routes (src/app/api/routes.py) -/

/-- The per-image record `scan_url` stores and returns; `str(local_path)`
is the identity here since paths are modelled as strings. -/
structure ScanRecord where
  id : String
  original_url : String
  local_path : Option String
  width : Option Nat
  height : Option Nat
  file_size : Option Nat
  alt_text : String
  source_element : String
deriving Repr, DecidableEq

/-- The dict built for one image in `scan_url`. -/
def toRecord (img : ImageInfo) : ScanRecord :=
  ⟨img.id, img.original_url, img.local_path, img.width, img.height,
   img.file_size, img.alt_text, img.source_element⟩

/-- An HTTP error (`fastapi.HTTPException`). -/
structure HttpError where
  status_code : Nat
  detail : String
deriving Repr, DecidableEq

/-- Embeds `get_scan_results`: 404 for an unknown scan id, else the stored
records. -/
def getScanResults (store : List (String × List ScanRecord)) (scanId : String) :
    Except HttpError (String × List ScanRecord) :=
  match store.lookup scanId with
  | none => Except.error ⟨404, "Scan not found"⟩
  | some records => Except.ok (scanId, records)

/-- Embeds `get_job_status`: an unknown job id yields
`{"job_id": job_id, "status": "pending"}`; a known id yields the stored
dict with `job_id` prepended.  The stored dicts never carry a `job_id`
key, so prepending models the `{**}` merge. -/
def getJobStatus (jobs : List (String × List (String × String))) (jobId : String) :
    Except HttpError (List (String × String)) :=
  match jobs.lookup jobId with
  | none => Except.ok [("job_id", jobId), ("status", "pending")]
  | some fields => Except.ok (("job_id", jobId) :: fields)

/-! ## `OptimizationResult` (src/app/processor/optimizer.py)

Python's float arithmetic is modelled over `ℚ` (all quantities here are
exact ratios of integers). -/

/-- The `OptimizationResult` dataclass fields used by
`size_reduction_percent`. -/
structure OptimizationResult where
  input_path : String
  output_path : String
  original_size : Nat
  optimized_size : Nat
  original_dimensions : Nat × Nat
  optimized_dimensions : Nat × Nat
deriving Repr, DecidableEq

/-- The `size_reduction_percent` property: `0` when `original_size` is
`0`, else `(1 - optimized_size / original_size) * 100`. -/
def sizeReductionPercent (r : OptimizationResult) : ℚ :=
  if r.original_size = 0 then 0
  else (1 - (r.optimized_size : ℚ) / (r.original_size : ℚ)) * 100

/-- Method view of `_generate_id`: `self` is unused, so the id depends
only on the URL string. -/
def Scraper.genId (_ : Scraper) (url : String) : String := generateId url

/-! ## Worked examples -/

/-- Base URL of the worked examples. -/
def egBase : String := "https://x.test/page"

/-- A page referencing `/a.png` three times (img tag, srcset entry and
CSS background), plus `/b.jpg` in the srcset and `/c.gif` in a
stylesheet block. -/
def egDoc : HtmlDoc :=
  { imgs := [{ src := some "/a.png", alt := some "hero" }],
    sources := [{ srcset := "/a.png 1x, /b.jpg 2x" }],
    styledEls := ["background-image: url(/a.png)"],
    styleTags := [some "background: url(/c.gif)"] }

/-- A one-image page used to exercise repeated scans. -/
def egDoc7 : HtmlDoc := { imgs := [{ src := some "/a.png" }] }

/-- Five discovered images awaiting download. -/
def egImg1 : ImageInfo := { id := "i1", original_url := "https://x.test/1.png" }

/-- Second discovered image (its fetch will fail). -/
def egImg2 : ImageInfo := { id := "i2", original_url := "https://x.test/2.png" }

/-- Third discovered image. -/
def egImg3 : ImageInfo := { id := "i3", original_url := "https://x.test/3.png" }

/-- Fourth discovered image (its fetch will fail). -/
def egImg4 : ImageInfo := { id := "i4", original_url := "https://x.test/4.png" }

/-- Fifth discovered image. -/
def egImg5 : ImageInfo := { id := "i5", original_url := "https://x.test/5.png" }

/-- The five-image batch. -/
def egImgs : List ImageInfo := [egImg1, egImg2, egImg3, egImg4, egImg5]

/-- A network oracle failing (HTTP error) on images 2 and 4. -/
def egFetch : String → Option (List Nat) := fun u =>
  if u = "https://x.test/2.png" ∨ u = "https://x.test/4.png" then none
  else some [137, 80, 78, 71]

/-- A decoder oracle that reads an 8-by-8 image. -/
def egDecode : List Nat → Option (Nat × Nat) := fun _ => some (8, 8)

/-! ## Lemmas about the scan loop -/

/-- The images `refLoop` appends for a reference list, given the URLs
already seen: first-seen deduplication in recursive form. -/
def processNew (seen : List String) : List RawRef → List ImageInfo
  | [] => []
  | r :: rs =>
    if seen.contains r.url || !isValidImageUrl r.url then processNew seen rs
    else mkInfo r :: processNew (r.url :: seen) rs

@[simp] lemma mkInfo_original_url (r : RawRef) : (mkInfo r).original_url = r.url := rfl

@[simp] lemma mkInfo_source_element (r : RawRef) :
    (mkInfo r).source_element = r.source_element := rfl

lemma refLoop_append (l1 l2 : List RawRef) (seen : List String) (images : List ImageInfo) :
    refLoop seen images (l1 ++ l2) =
      refLoop (refLoop seen images l1).1 (refLoop seen images l1).2 l2 := by
  induction l1 generalizing seen images with
  | nil => rfl
  | cons r rs ih =>
    simp only [List.cons_append, refLoop]
    by_cases hc : (seen.contains r.url || !isValidImageUrl r.url) = true
    · rw [if_pos hc, if_pos hc]; exact ih seen images
    · rw [if_neg hc, if_neg hc]; exact ih _ _

lemma refLoop_snd (refs : List RawRef) :
    ∀ seen images, (refLoop seen images refs).2 = images ++ processNew seen refs := by
  induction refs with
  | nil => intro seen images; simp [refLoop, processNew]
  | cons r rs ih =>
    intro seen images
    simp only [refLoop, processNew]
    by_cases hc : (seen.contains r.url || !isValidImageUrl r.url) = true
    · rw [if_pos hc, if_pos hc]; exact ih seen images
    · rw [if_neg hc, if_neg hc, ih]; simp

/-- Rewrites `scan` in closed form: it appends the first-seen-deduplicated
references to `self.images` and returns the whole accumulated list. -/
lemma scan_eq (s : Scraper) (doc : HtmlDoc) :
    s.scan doc = (⟨s.base_url, s.images ++ processNew [] (scanRefs s.base_url doc)⟩,
                  s.images ++ processNew [] (scanRefs s.base_url doc)) := by
  show ((⟨s.base_url, _⟩ : Scraper), _) = _
  rw [← refLoop_append, ← refLoop_append, ← List.append_assoc]
  rw [show imgRefs s.base_url doc.imgs ++ sourceRefs s.base_url doc.sources ++
        bgRefs s.base_url doc = scanRefs s.base_url doc from rfl]
  rw [refLoop_snd]

/-- Every produced image is valid, unseen, and comes from some reference. -/
lemma processNew_sub (refs : List RawRef) :
    ∀ seen, ∀ img ∈ processNew seen refs,
      isValidImageUrl img.original_url = true ∧
        seen.contains img.original_url = false ∧
        ∃ r ∈ refs, r.url = img.original_url ∧ img = mkInfo r := by
  induction refs with
  | nil => simp [processNew]
  | cons r0 rs ih =>
    intro seen img hmem
    cases hc : (seen.contains r0.url || !isValidImageUrl r0.url) with
    | true =>
      rw [processNew, if_pos hc] at hmem
      obtain ⟨hval, hseen, r, hr, hurl, hmk⟩ := ih seen img hmem
      exact ⟨hval, hseen, r, List.mem_cons_of_mem _ hr, hurl, hmk⟩
    | false =>
      rw [processNew, if_neg (by rw [hc]; simp)] at hmem
      rw [Bool.or_eq_false_iff] at hc
      rcases List.mem_cons.mp hmem with rfl | htail
      · refine ⟨by simpa using hc.2, by simpa using hc.1, r0, List.mem_cons_self _ _, rfl, rfl⟩
      · obtain ⟨hval, hseen, r, hr, hurl, hmk⟩ := ih (r0.url :: seen) img htail
        rw [List.contains_cons, Bool.or_eq_false_iff] at hseen
        exact ⟨hval, hseen.2, r, List.mem_cons_of_mem _ hr, hurl, hmk⟩

/-- Completeness: a valid, not-yet-seen reference always yields an image. -/
lemma processNew_mem_of (refs : List RawRef) :
    ∀ seen, ∀ r ∈ refs, isValidImageUrl r.url = true → seen.contains r.url = false →
      ∃ img ∈ processNew seen refs, img.original_url = r.url := by
  induction refs with
  | nil => simp
  | cons r0 rs ih =>
    intro seen r hr hval hseen
    cases hc : (seen.contains r0.url || !isValidImageUrl r0.url) with
    | true =>
      have hcd := hc
      rw [Bool.or_eq_true_iff] at hcd
      rcases List.mem_cons.mp hr with rfl | hr'
      · rcases hcd with h | h
        · rw [h] at hseen; cases hseen
        · rw [hval] at h; cases h
      · obtain ⟨img, hmem, heq⟩ := ih seen r hr' hval hseen
        refine ⟨img, ?_, heq⟩
        rw [processNew, if_pos hc]
        exact hmem
    | false =>
      by_cases hu : r.url = r0.url
      · refine ⟨mkInfo r0, ?_, by rw [mkInfo_original_url, hu]⟩
        rw [processNew, if_neg (by rw [hc]; simp)]
        exact List.mem_cons_self _ _
      · rcases List.mem_cons.mp hr with rfl | hr'
        · exact absurd rfl hu
        · obtain ⟨img, hmem, heq⟩ := ih (r0.url :: seen) r hr' hval
            (by rw [List.contains_cons, Bool.or_eq_false_iff]
                exact ⟨beq_eq_false_iff_ne.mpr hu, hseen⟩)
          refine ⟨img, ?_, heq⟩
          rw [processNew, if_neg (by rw [hc]; simp)]
          exact List.mem_cons_of_mem _ hmem

/-- The retained canonical URLs are pairwise distinct. -/
lemma processNew_pairwise (refs : List RawRef) :
    ∀ seen, (processNew seen refs).Pairwise
      (fun a b => a.original_url ≠ b.original_url) := by
  induction refs with
  | nil => intro seen; simp [processNew]
  | cons r0 rs ih =>
    intro seen
    cases hc : (seen.contains r0.url || !isValidImageUrl r0.url) with
    | true => rw [processNew, if_pos hc]; exact ih seen
    | false =>
      rw [processNew, if_neg (by rw [hc]; simp)]
      refine List.Pairwise.cons ?_ (ih _)
      intro b hb
      have hseen := (processNew_sub rs (r0.url :: seen) b hb).2.1
      rw [List.contains_cons, Bool.or_eq_false_iff] at hseen
      have := beq_eq_false_iff_ne.mp hseen.1
      rw [mkInfo_original_url]
      exact fun h => this h.symm

/-- Each retained image corresponds to the first valid occurrence of its
canonical URL in the reference list (its provenance included). -/
lemma processNew_find (refs : List RawRef) :
    ∀ seen, ∀ img ∈ processNew seen refs,
      ∃ r, refs.find? (fun x => x.url == img.original_url && isValidImageUrl x.url)
            = some r ∧ img = mkInfo r := by
  induction refs with
  | nil => simp [processNew]
  | cons r0 rs ih =>
    intro seen img hmem
    cases hc : (seen.contains r0.url || !isValidImageUrl r0.url) with
    | true =>
      rw [processNew, if_pos hc] at hmem
      obtain ⟨hval, hseen, -⟩ := processNew_sub rs seen img hmem
      have hpred : (r0.url == img.original_url && isValidImageUrl r0.url) = false := by
        by_cases h : r0.url = img.original_url
        · rw [Bool.or_eq_true_iff] at hc
          rcases hc with hc | hc
          · rw [h, hseen] at hc; cases hc
          · rw [h, hval] at hc; cases hc
        · rw [beq_eq_false_iff_ne.mpr h, Bool.false_and]
      obtain ⟨r, hfind, hmk⟩ := ih seen img hmem
      exact ⟨r, by rw [List.find?_cons_of_neg _ (by simp [hpred]), hfind], hmk⟩
    | false =>
      rw [processNew, if_neg (by rw [hc]; simp)] at hmem
      rw [Bool.or_eq_false_iff] at hc
      rcases List.mem_cons.mp hmem with rfl | htail
      · refine ⟨r0, ?_, rfl⟩
        have hval : isValidImageUrl r0.url = true := by simpa using hc.2
        rw [List.find?_cons_of_pos _ (by simp [hval])]
      · obtain ⟨r, hfind, hmk⟩ := ih (r0.url :: seen) img htail
        have hseen := (processNew_sub rs (r0.url :: seen) img htail).2.1
        rw [List.contains_cons, Bool.or_eq_false_iff] at hseen
        refine ⟨r, ?_, hmk⟩
        rw [List.find?_cons_of_neg, hfind]
        have : (img.original_url == r0.url) = false := hseen.1
        simp only [Bool.and_eq_true, beq_iff_eq]
        intro hand
        rw [hand.1] at this
        simp at this

/-- Only references with a supported extension are counted. -/
lemma processNew_length (refs : List RawRef) :
    ∀ seen, (processNew seen refs).length ≤
      refs.countP (fun r => isValidImageUrl r.url) := by
  induction refs with
  | nil => intro seen; simp [processNew]
  | cons r0 rs ih =>
    intro seen
    cases hc : (seen.contains r0.url || !isValidImageUrl r0.url) with
    | true =>
      rw [processNew, if_pos hc, List.countP_cons]
      exact le_trans (ih seen) (Nat.le_add_right _ _)
    | false =>
      have hval : isValidImageUrl r0.url = true := by
        have h2 := hc
        rw [Bool.or_eq_false_iff] at h2
        simpa using h2.2
      rw [processNew, if_neg (by rw [hc]; simp), List.countP_cons]
      simp only [List.length_cons, hval, if_pos]
      have := ih (r0.url :: seen)
      omega

/-- A scan from a fresh scraper returns exactly the deduplicated
references. -/
lemma scan_init (baseUrl : String) (doc : HtmlDoc) :
    ((Scraper.init baseUrl).scan doc).2 = processNew [] (scanRefs baseUrl doc) := by
  rw [scan_eq]; rfl

/-- The filter predicate of `download_all` holds exactly for images whose
fetch succeeded, provided the image was not downloaded before. -/
lemma downloadStep_local_path (tempDir : String) (fetch : String → Option (List Nat))
    (decode : List Nat → Option (Nat × Nat)) (img : ImageInfo)
    (h : img.local_path = none) :
    (downloadStep tempDir fetch decode img).local_path.isSome =
      (fetch img.original_url).isSome := by
  cases hf : fetch img.original_url <;> simp [downloadStep, downloadImage, hf, h]

/-- Lowercasing a string gives the empty string only for the empty
string. -/
lemma mk_lowerChars_eq_empty_iff (s : String) :
    String.mk (lowerChars s.data) = "" ↔ s = "" := by
  constructor
  · intro h
    have h2 : lowerChars s.data = ("" : String).data := congrArg String.data h
    have h3 : ("" : String).data = [] := by decide
    rw [h3] at h2
    have h4 : s.data = [] := List.map_eq_nil_iff.mp h2
    obtain ⟨l⟩ := s
    have h5 : l = [] := h4
    subst h5
    decide
  · intro h; rw [h]; decide

/-! ## The claims -/

/-- C1: the image id is a pure, deterministic function of the canonical
URL — raw references resolving to the same canonical URL receive the same
id, and the id does not depend on the scraper instance (no randomness or
time input occurs in `_generate_id`). -/
theorem c1_id_pure_function_of_canonical_url :
    (∀ baseUrl r1 r2, resolveUrl baseUrl r1 = resolveUrl baseUrl r2 →
       generateId (resolveUrl baseUrl r1) = generateId (resolveUrl baseUrl r2)) ∧
    (∀ s1 s2 : Scraper, ∀ canonicalUrl,
       s1.genId canonicalUrl = s2.genId canonicalUrl) :=
  ⟨fun _ _ _ h => by rw [h], fun _ _ _ => rfl⟩

/-- C1 witness: `/a.png` and its absolute form resolve identically
against `https://x.test/page` and hence get the same id, whose concrete
value two fresh scraper instances agree on. -/
theorem c1_witness :
    resolveUrl "https://x.test/page" "/a.png" = "https://x.test/a.png" ∧
    generateId (resolveUrl "https://x.test/page" "/a.png") =
      generateId (resolveUrl "https://x.test/page" "https://x.test/a.png") ∧
    (Scraper.init "https://x.test/page").genId "https://x.test/a.png" = "bac8f6007c71" ∧
    (Scraper.init "https://other.test/").genId "https://x.test/a.png" = "bac8f6007c71" :=
  ⟨by decide,
   c1_id_pure_function_of_canonical_url.1 "https://x.test/page" "/a.png"
     "https://x.test/a.png" (by decide),
   by decide, by decide⟩

/-- C2: within one scan the retained images have pairwise-distinct
canonical URLs; each retained image is the first valid occurrence of its
URL in extraction order (so its provenance tag is the first occurrence's),
and every valid reference is represented by a retained image. -/
theorem c2_dedup_first_seen_wins (baseUrl : String) (doc : HtmlDoc) :
    (((Scraper.init baseUrl).scan doc).2.Pairwise
       fun a b => a.original_url ≠ b.original_url) ∧
    (∀ img ∈ ((Scraper.init baseUrl).scan doc).2,
       ∃ r, (scanRefs baseUrl doc).find?
              (fun x => x.url == img.original_url && isValidImageUrl x.url) = some r ∧
            img.source_element = r.source_element ∧ img = mkInfo r) ∧
    (∀ r ∈ scanRefs baseUrl doc, isValidImageUrl r.url = true →
       ∃ img ∈ ((Scraper.init baseUrl).scan doc).2, img.original_url = r.url) := by
  refine ⟨?_, ?_, ?_⟩
  · rw [scan_init]; exact processNew_pairwise _ _
  · rw [scan_init]
    intro img hm
    obtain ⟨r, hf, hmk⟩ := processNew_find _ _ img hm
    exact ⟨r, hf, by rw [hmk, mkInfo_source_element], hmk⟩
  · rw [scan_init]
    intro r hr hval
    exact processNew_mem_of _ [] r hr hval rfl

/-- C2 witness: `egDoc` references `/a.png` as an img tag, a srcset entry
and a CSS background; the scan retains it once, with the img provenance,
alongside the two other URLs. -/
theorem c2_witness :
    (((Scraper.init egBase).scan egDoc).2.map fun img =>
        (img.original_url, img.source_element)) =
      [("https://x.test/a.png", "img"), ("https://x.test/b.jpg", "source"),
       ("https://x.test/c.gif", "background-image")] ∧
    (∃ img ∈ ((Scraper.init egBase).scan egDoc).2,
       img.original_url = "https://x.test/a.png") ∧
    (((Scraper.init egBase).scan egDoc).2.Pairwise
       fun a b => a.original_url ≠ b.original_url) :=
  ⟨by decide,
   (c2_dedup_first_seen_wins egBase egDoc).2.2
     ⟨"https://x.test/a.png", "hero", "img"⟩ (by decide) (by decide),
   (c2_dedup_first_seen_wins egBase egDoc).1⟩

/-- C3: a reference passes the image filter exactly when its parsed path
ends (case-insensitively) with a supported extension; consequently a scan
never retains more images than there are references with a recognized
extension, and every retained image has one. -/
theorem c3_extension_filter :
    (∀ url, isValidImageUrl url = true ↔
       ∃ ext ∈ SUPPORTED_EXTENSIONS,
         endsWithChars ext.data (lowerChars (urlparsePy url "").path.data) = true) ∧
    (∀ baseUrl doc,
       ((Scraper.init baseUrl).scan doc).2.length ≤
         (scanRefs baseUrl doc).countP (fun r => isValidImageUrl r.url) ∧
       ∀ img ∈ ((Scraper.init baseUrl).scan doc).2,
         isValidImageUrl img.original_url = true) := by
  constructor
  · intro url
    simp [isValidImageUrl, List.any_eq_true]
  · intro baseUrl doc
    constructor
    · rw [scan_init]; exact processNew_length _ _
    · rw [scan_init]
      intro img hm
      exact (processNew_sub _ _ img hm).1

/-- C3 witness: an uppercase `.JPG` is accepted, `.svg` and a missing
extension are rejected, and on `egDoc` the retained count is bounded by
the recognized-extension count. -/
theorem c3_witness :
    isValidImageUrl "https://x.test/img/photo.JPG" = true ∧
    isValidImageUrl "https://x.test/img/vector.svg" = false ∧
    isValidImageUrl "https://x.test/img/noext" = false ∧
    ((Scraper.init egBase).scan egDoc).2.length ≤
      (scanRefs egBase egDoc).countP (fun r => isValidImageUrl r.url) :=
  ⟨(c3_extension_filter.1 "https://x.test/img/photo.JPG").mpr
     ⟨".jpg", by decide, by decide⟩,
   by decide, by decide, (c3_extension_filter.2 egBase egDoc).1⟩

/-- C7 counterexample: on a one-image page, a second `scan` on the same
scraper instance returns a doubled id sequence, not the same sequence —
`self.images` accumulates while `seen_urls` resets. -/
theorem c7_counterexample :
    ((((Scraper.init "https://x.test/page").scan egDoc7).1.scan egDoc7).2.map
        fun img => img.id) ≠
      (((Scraper.init "https://x.test/page").scan egDoc7).2.map fun img => img.id) := by
  decide

/-- C7 (amended): extraction is deterministic — any scraper in a given
state yields the reference images as a pure function of base URL and
document, and a fresh-instance re-extraction repeats the same ordered id
sequence; but `scan` accumulates into `self.images`, so the second run on
the same instance returns the first sequence concatenated with itself. -/
theorem c7_deterministic_but_accumulating (baseUrl : String) (doc : HtmlDoc) :
    ((((Scraper.init baseUrl).scan doc).1.scan doc).2 =
       ((Scraper.init baseUrl).scan doc).2 ++ ((Scraper.init baseUrl).scan doc).2) ∧
    (∀ s : Scraper, s.base_url = baseUrl →
       (s.scan doc).2 = s.images ++ ((Scraper.init baseUrl).scan doc).2) := by
  have h1 : ((Scraper.init baseUrl).scan doc).1 =
      ⟨baseUrl, processNew [] (scanRefs baseUrl doc)⟩ := by
    rw [scan_eq]; rfl
  constructor
  · rw [h1, scan_eq, scan_init]
  · intro s hs
    rw [scan_eq, scan_init, hs]

/-- C7 witness: the concrete doubled sequence on `egDoc7`, and the
accumulation law applied to the fresh instance. -/
theorem c7_witness :
    ((((Scraper.init "https://x.test/page").scan egDoc7).1.scan egDoc7).2.map
        fun img => img.id) = ["bac8f6007c71", "bac8f6007c71"] ∧
    ((Scraper.init "https://x.test/page").scan egDoc7).2 =
      (Scraper.init "https://x.test/page").images ++
        ((Scraper.init "https://x.test/page").scan egDoc7).2 :=
  ⟨by rw [(c7_deterministic_but_accumulating "https://x.test/page" egDoc7).1]; decide,
   (c7_deterministic_but_accumulating "https://x.test/page" egDoc7).2
     (Scraper.init "https://x.test/page") rfl⟩

/-- C4: `download_all` is total (it never propagates an individual fetch
failure) and returns exactly the images whose download succeeded — for a
freshly discovered batch, as many images as successful fetches, each with
a `local_path`. -/
theorem c4_download_all_partial_failure (tempDir : String)
    (fetch : String → Option (List Nat)) (decode : List Nat → Option (Nat × Nat))
    (images : List ImageInfo) (h : ∀ img ∈ images, img.local_path = none) :
    (downloadAll tempDir fetch decode images).length =
      images.countP (fun img => (fetch img.original_url).isSome) ∧
    ∀ img ∈ downloadAll tempDir fetch decode images, img.local_path.isSome = true := by
  constructor
  · show ((images.map (downloadStep tempDir fetch decode)).filter
        fun img => img.local_path.isSome).length = _
    rw [← List.countP_eq_length_filter, List.countP_map]
    induction images with
    | nil => rfl
    | cons i is ih =>
      rw [List.countP_cons, List.countP_cons,
        ih fun img hm => h img (List.mem_cons_of_mem _ hm)]
      have hi := downloadStep_local_path tempDir fetch decode i
        (h i (List.mem_cons_self _ _))
      simp only [Function.comp_apply, hi]
  · intro img hm
    simp only [downloadAll] at hm
    exact (List.mem_filter.mp hm).2

/-- C4 witness: of 5 discovered images with 2 failing fetches,
`download_all` returns exactly the 3 successful ones. -/
theorem c4_witness :
    (downloadAll "temp" egFetch egDecode egImgs).length = 3 ∧
    ((downloadAll "temp" egFetch egDecode egImgs).map fun img => img.original_url) =
      ["https://x.test/1.png", "https://x.test/3.png", "https://x.test/5.png"] :=
  ⟨((c4_download_all_partial_failure "temp" egFetch egDecode egImgs (by decide)).1).trans
     (by decide),
   by decide⟩

/-- C5 counterexample: looking up an unknown job id does not report
NotFound — `get_job_status` answers with a successful `pending` status. -/
theorem c5_counterexample :
    getJobStatus [] "job_42" =
      Except.ok [("job_id", "job_42"), ("status", "pending")] ∧
    (getJobStatus [] "job_42").toOption.isSome = true := by
  exact ⟨rfl, rfl⟩

/-- C5 (amended): a lookup of an unknown session id reports NotFound
(HTTP 404) and never crashes; a lookup of an unknown job id does not
report NotFound but answers successfully with status `pending`. -/
theorem c5_unknown_lookups (store : List (String × List ScanRecord))
    (jobs : List (String × List (String × String))) (sid jid : String)
    (h1 : store.lookup sid = none) (h2 : jobs.lookup jid = none) :
    getScanResults store sid = Except.error ⟨404, "Scan not found"⟩ ∧
    getJobStatus jobs jid = Except.ok [("job_id", jid), ("status", "pending")] := by
  constructor
  · simp [getScanResults, h1]
  · simp [getJobStatus, h2]

/-- C5 witness: concrete nonempty stores missing the queried ids. -/
theorem c5_witness :
    getScanResults [("scan_00001", [])] "scan_99999" =
      Except.error ⟨404, "Scan not found"⟩ ∧
    getJobStatus [("job_a", [("status", "completed")])] "job_b" =
      Except.ok [("job_id", "job_b"), ("status", "pending")] :=
  c5_unknown_lookups _ _ _ _ (by decide) (by decide)

/-- C6: an image without `local_path` is excluded from the downloaded
view but stays (same id and URL, at its position) in the post-download
`self.images`; the record built for the API carries exactly the eight
contract fields, with `local_path` nullable. -/
theorem c6_discovered_vs_downloaded_views (tempDir : String)
    (fetch : String → Option (List Nat)) (decode : List Nat → Option (Nat × Nat))
    (images : List ImageInfo) :
    downloadAll tempDir fetch decode images =
      (downloadAllImages tempDir fetch decode images).filter
        (fun img => img.local_path.isSome) ∧
    downloadAllImages tempDir fetch decode images =
      images.map (downloadStep tempDir fetch decode) ∧
    (∀ img : ImageInfo, (downloadStep tempDir fetch decode img).id = img.id ∧
       (downloadStep tempDir fetch decode img).original_url = img.original_url) ∧
    (∀ img ∈ downloadAllImages tempDir fetch decode images,
       img.local_path = none → img ∉ downloadAll tempDir fetch decode images) ∧
    (∀ img : ImageInfo, toRecord img =
       ⟨img.id, img.original_url, img.local_path, img.width, img.height,
        img.file_size, img.alt_text, img.source_element⟩) := by
  refine ⟨rfl, rfl, ?_, ?_, fun _ => rfl⟩
  · intro img
    cases hf : fetch img.original_url <;>
      simp [downloadStep, downloadImage, hf]
  · intro img _ hnone hmem
    have := (List.mem_filter.mp hmem).2
    rw [hnone] at this
    cases this

/-- C6 witness: image 2 (failed fetch) keeps its place in the discovered
view with no `local_path`, is absent from the downloaded view, and its
record carries the eight contract fields. -/
theorem c6_witness :
    ((downloadAllImages "temp" egFetch egDecode egImgs).map fun img =>
        (img.original_url, img.local_path.isSome)) =
      [("https://x.test/1.png", true), ("https://x.test/2.png", false),
       ("https://x.test/3.png", true), ("https://x.test/4.png", false),
       ("https://x.test/5.png", true)] ∧
    egImg2 ∉ downloadAll "temp" egFetch egDecode egImgs ∧
    toRecord egImg2 =
      ⟨"i2", "https://x.test/2.png", none, none, none, none, "", ""⟩ :=
  ⟨by decide,
   (c6_discovered_vs_downloaded_views "temp" egFetch egDecode egImgs).2.2.2.1
     egImg2 (by decide) (by decide),
   ((c6_discovered_vs_downloaded_views "temp" egFetch egDecode egImgs).2.2.2.2
     egImg2).trans (by decide)⟩

/-- C8: `download_image` is atomic for the caller — a fetch failure
raises with the image untouched (all four enrichment fields unchanged),
and a successful fetch yields an image with both `local_path` and
`file_size` set, the dimensions set exactly when decoding succeeded and
untouched when it failed. -/
theorem c8_download_image_atomic (tempDir : String)
    (fetch : String → Option (List Nat)) (decode : List Nat → Option (Nat × Nat))
    (img : ImageInfo) :
    (fetch img.original_url = none →
       downloadImage tempDir fetch decode img =
         Except.error ("Failed to download " ++ img.original_url) ∧
       downloadStep tempDir fetch decode img = img) ∧
    (∀ content, fetch img.original_url = some content →
       ∃ enriched, downloadImage tempDir fetch decode img = Except.ok enriched ∧
         enriched.local_path =
           some (tempDir ++ "/" ++ img.id ++ extOfUrl img.original_url) ∧
         enriched.file_size = some content.length ∧
         (∀ w h, decode content = some (w, h) →
            enriched.width = some w ∧ enriched.height = some h) ∧
         (decode content = none →
            enriched.width = img.width ∧ enriched.height = img.height)) := by
  constructor
  · intro hf
    constructor <;> simp [downloadImage, downloadStep, hf]
  · intro content hf
    cases hd : decode content with
    | none =>
      refine ⟨{ img with
          local_path := some (tempDir ++ "/" ++ img.id ++ extOfUrl img.original_url),
          file_size := some content.length },
        ?_, rfl, rfl, ?_, fun _ => ⟨rfl, rfl⟩⟩
      · simp [downloadImage, hf, hd]
      · intro w h hc
        cases hc
    | some wh =>
      refine ⟨{ img with
          width := some wh.1, height := some wh.2,
          local_path := some (tempDir ++ "/" ++ img.id ++ extOfUrl img.original_url),
          file_size := some content.length },
        ?_, rfl, rfl, ?_, ?_⟩
      · simp [downloadImage, hf, hd]
      · intro w h hc
        injection hc with h2
        subst h2
        exact ⟨rfl, rfl⟩
      · intro hc
        cases hc

/-- C8 witness: image 2 fails atomically (error, image unchanged); image
1 succeeds with path, size and dimensions populated. -/
theorem c8_witness :
    (downloadImage "temp" egFetch egDecode egImg2 =
       Except.error ("Failed to download " ++ egImg2.original_url) ∧
     downloadStep "temp" egFetch egDecode egImg2 = egImg2) ∧
    (∃ enriched, downloadImage "temp" egFetch egDecode egImg1 = Except.ok enriched ∧
       enriched.local_path =
         some ("temp" ++ "/" ++ egImg1.id ++ extOfUrl egImg1.original_url) ∧
       enriched.file_size = some ([137, 80, 78, 71] : List Nat).length ∧
       (∀ w h, egDecode [137, 80, 78, 71] = some (w, h) →
          enriched.width = some w ∧ enriched.height = some h) ∧
       (egDecode [137, 80, 78, 71] = none →
          enriched.width = egImg1.width ∧ enriched.height = egImg1.height)) :=
  ⟨(c8_download_image_atomic "temp" egFetch egDecode egImg2).1 (by decide),
   (c8_download_image_atomic "temp" egFetch egDecode egImg1).2
     [137, 80, 78, 71] (by decide)⟩

/-- C9: a successfully fetched image is persisted as `<id><ext>` inside
the scratch directory (this exact path becomes `local_path`), where the
extension is the lowercased extension of the source URL's path, with
`.jpg` as the fallback when that path has none. -/
theorem c9_persisted_filename (tempDir : String)
    (fetch : String → Option (List Nat)) (decode : List Nat → Option (Nat × Nat))
    (img : ImageInfo) (content : List Nat)
    (h : fetch img.original_url = some content) :
    (∃ enriched, downloadImage tempDir fetch decode img = Except.ok enriched ∧
       enriched.local_path =
         some (tempDir ++ "/" ++ img.id ++ extOfUrl img.original_url)) ∧
    (pathSuffix (urlparsePy img.original_url "").path = "" →
       extOfUrl img.original_url = ".jpg") ∧
    (pathSuffix (urlparsePy img.original_url "").path ≠ "" →
       extOfUrl img.original_url =
         String.mk (lowerChars (pathSuffix (urlparsePy img.original_url "").path).data)) := by
  refine ⟨?_, ?_, ?_⟩
  · cases hd : decode content with
    | none =>
      exact ⟨{ img with
          local_path := some (tempDir ++ "/" ++ img.id ++ extOfUrl img.original_url),
          file_size := some content.length },
        by simp [downloadImage, h, hd], rfl⟩
    | some wh =>
      exact ⟨{ img with
          width := some wh.1, height := some wh.2,
          local_path := some (tempDir ++ "/" ++ img.id ++ extOfUrl img.original_url),
          file_size := some content.length },
        by simp [downloadImage, h, hd], rfl⟩
  · intro h0
    rw [extOfUrl, h0, if_pos]
    decide
  · intro h1
    rw [extOfUrl, if_neg]
    intro heq
    exact h1 ((mk_lowerChars_eq_empty_iff _).mp heq)

/-- C9 witness: concrete extension handling — `.png` kept, uppercase
`.WEBP` lowercased, extensionless URL falls back to `.jpg` — and the
persisted path of image 1. -/
theorem c9_witness :
    ((∃ enriched, downloadImage "temp" egFetch egDecode egImg1 = Except.ok enriched ∧
        enriched.local_path =
          some ("temp" ++ "/" ++ egImg1.id ++ extOfUrl egImg1.original_url)) ∧
      (pathSuffix (urlparsePy egImg1.original_url "").path = "" →
        extOfUrl egImg1.original_url = ".jpg") ∧
      (pathSuffix (urlparsePy egImg1.original_url "").path ≠ "" →
        extOfUrl egImg1.original_url =
          String.mk (lowerChars (pathSuffix (urlparsePy egImg1.original_url "").path).data))) ∧
    extOfUrl "https://x.test/1.png" = ".png" ∧
    extOfUrl "https://x.test/UP.WEBP?v=2" = ".webp" ∧
    extOfUrl "https://x.test/noext" = ".jpg" :=
  ⟨c9_persisted_filename "temp" egFetch egDecode egImg1 [137, 80, 78, 71] (by decide),
   by decide, by decide, by decide⟩

/-- C10: `size_reduction_percent` is total — zero when the original size
is zero (no division by zero), and otherwise exactly
`(1 - optimized_size / original_size) * 100`. -/
theorem c10_size_reduction_total (r : OptimizationResult) :
    (r.original_size = 0 → sizeReductionPercent r = 0) ∧
    (r.original_size ≠ 0 →
       sizeReductionPercent r =
         (1 - (r.optimized_size : ℚ) / (r.original_size : ℚ)) * 100) := by
  constructor
  · intro h; simp [sizeReductionPercent, h]
  · intro h; simp [sizeReductionPercent, h]

/-- C10 witness: a zero-byte original reduces by 0, and 200 bytes
optimized to 50 reduce by 75 percent. -/
theorem c10_witness :
    sizeReductionPercent ⟨"in.png", "out.webp", 0, 0, (1, 1), (1, 1)⟩ = 0 ∧
    sizeReductionPercent ⟨"in.png", "out.webp", 200, 50, (10, 10), (10, 10)⟩ = 75 :=
  ⟨(c10_size_reduction_total _).1 rfl,
   by rw [(c10_size_reduction_total _).2 (by decide)]; norm_num⟩

end AutoCrisp
